import Mathlib

/-!
Verification of the extreme-value statistics core of the Hydrology repository:
the Gringorten plotting-position estimator, the Gumbel/Weibull distribution
fitter, the peak-over-threshold extractor and the scenario drivers of
`Flood Frequency Analysis Using the Gumbel Distribution.py` and
`wetland_frequency_analysis.py`, together with `calculate_velocity` of
`estimating_water_depth_and_flow_velocity.py`.

Sample values are embedded as rational numbers.  External numerical routines
from scipy (`gumbel_r.fit`, `weibull_min.fit`, `pareto.fit` and the
corresponding `ppf` inverse CDFs) are maximum-likelihood optimisers over the
reals; they are modelled as opaque function parameters, so every theorem below
holds for an arbitrary interpretation of them.  `np.argsort` is modelled as a
stable sort of the index list `0, …, N−1` by value (ties broken by index).
-/

namespace Hydrology

/-- Value of index `i` in `xs` (out-of-range indices get `default`); the sort
key used by the argsort comparator. -/
def keyAt {α : Type} [Inhabited α] (xs : List α) (i : ℕ) : α :=
  xs.getD i default

/-- Comparator of `np.argsort xs` on indices: ascending by value, ties broken
by original index (a stable sort order; it is a linear order on indices, so
any correct sorting routine produces the same result). -/
def argsortRel {α : Type} [LinearOrder α] [Inhabited α] (xs : List α) (i j : ℕ) : Prop :=
  keyAt xs i < keyAt xs j ∨ (keyAt xs i = keyAt xs j ∧ i ≤ j)

instance argsortRelDecidable {α : Type} [LinearOrder α] [Inhabited α] (xs : List α) :
    DecidableRel (argsortRel xs) := fun i j =>
  inferInstanceAs (Decidable (keyAt xs i < keyAt xs j ∨ (keyAt xs i = keyAt xs j ∧ i ≤ j)))

instance argsortRelTotal {α : Type} [LinearOrder α] [Inhabited α] (xs : List α) :
    IsTotal ℕ (argsortRel xs) where
  total i j := by
    rcases lt_trichotomy (keyAt xs i) (keyAt xs j) with h | h | h
    · exact Or.inl (Or.inl h)
    · rcases Nat.le_total i j with hij | hij
      · exact Or.inl (Or.inr ⟨h, hij⟩)
      · exact Or.inr (Or.inr ⟨h.symm, hij⟩)
    · exact Or.inr (Or.inl h)

instance argsortRelTrans {α : Type} [LinearOrder α] [Inhabited α] (xs : List α) :
    IsTrans ℕ (argsortRel xs) where
  trans i j k hij hjk := by
    rcases hij with h1 | ⟨h1, hi⟩ <;> rcases hjk with h2 | ⟨h2, hj⟩
    · exact Or.inl (h1.trans h2)
    · exact Or.inl (h2 ▸ h1)
    · exact Or.inl (h1 ▸ h2)
    · exact Or.inr ⟨h1.trans h2, hi.trans hj⟩

instance argsortRelAntisymm {α : Type} [LinearOrder α] [Inhabited α] (xs : List α) :
    IsAntisymm ℕ (argsortRel xs) where
  antisymm i j hij hji := by
    rcases hij with h1 | ⟨h1, hi⟩ <;> rcases hji with h2 | ⟨h2, hj⟩
    · exact absurd (h1.trans h2) (lt_irrefl _)
    · exact absurd h1 (h2 ▸ lt_irrefl _)
    · exact absurd h2 (h1 ▸ lt_irrefl _)
    · exact Nat.le_antisymm hi hj

/-- `np.argsort xs`: the index list `0, …, N−1` sorted ascending by value. -/
def argsort {α : Type} [LinearOrder α] [Inhabited α] (xs : List α) : List ℕ :=
  (List.range xs.length).insertionSort (argsortRel xs)

/-- The Gringorten plotting position parameter `a = 0.44`. -/
def gringortenA : ℚ := 44 / 100

/-- The rank array of `calculate_wetland_probabilities`:
`np.argsort(np.argsort(data)[::-1]) + 1` when `extreme == 'high'`,
`np.argsort(np.argsort(data)) + 1` otherwise. -/
def wetlandRanks (data : List ℚ) (extreme : String) : List ℕ :=
  if extreme = "high" then
    (argsort ((argsort data).reverse)).map (· + 1)
  else
    (argsort (argsort data)).map (· + 1)

/-- `calculate_wetland_probabilities` of `wetland_frequency_analysis.py`:
returns `(exceedance_prob, non_exceedance_prob, return_period)`. -/
def calculate_wetland_probabilities (data : List ℚ) (extreme : String) :
    List ℚ × List ℚ × List ℚ :=
  let N : ℚ := (data.length : ℚ)
  let a : ℚ := gringortenA
  let ranks := wetlandRanks data extreme
  let exceedance_prob := ranks.map (fun (r : ℕ) => ((r : ℚ) - a) / (N + 1 - 2 * a))
  let non_exceedance_prob := exceedance_prob.map (fun p => 1 - p)
  let return_period := exceedance_prob.map (fun p => 1 / p)
  (exceedance_prob, non_exceedance_prob, return_period)

/-- The rank array of `calculate_probabilities` of the flood script:
`np.argsort(np.argsort(peak_flows)[::-1]) + 1` (descending ranks). -/
def floodRanks (peak_flows : List ℚ) : List ℕ :=
  (argsort ((argsort peak_flows).reverse)).map (· + 1)

/-- `calculate_probabilities` of
`Flood Frequency Analysis Using the Gumbel Distribution.py`:
returns `(exceedance_prob, non_exceedance_prob, return_period)`. -/
def calculate_probabilities (peak_flows : List ℚ) : List ℚ × List ℚ × List ℚ :=
  let N : ℚ := (peak_flows.length : ℚ)
  let a : ℚ := gringortenA
  let ranks := floodRanks peak_flows
  let exceedance_prob := ranks.map (fun (r : ℕ) => ((r : ℚ) - a) / (N + 1 - 2 * a))
  let non_exceedance_prob := exceedance_prob.map (fun p => 1 - p)
  let return_period := exceedance_prob.map (fun p => 1 / p)
  (exceedance_prob, non_exceedance_prob, return_period)

/-- The probability computed in the gumbel branch of `fit_distribution`:
`p_theoretical = 1 - 1 / return_periods if extreme == 'high' else 1 / return_periods`. -/
def gumbelProb (extreme : String) (T : ℚ) : ℚ :=
  if extreme = "high" then 1 - 1 / T else 1 / T

/-- The probability computed in the weibull branch of `fit_distribution`:
`p_theoretical = 1 - 1 / return_periods if extreme == 'low' else 1 / return_periods`.
Note the test is against `'low'` here, unlike the gumbel branch. -/
def weibullProb (extreme : String) (T : ℚ) : ℚ :=
  if extreme = "low" then 1 - 1 / T else 1 / T

/-- `fit_distribution` of `wetland_frequency_analysis.py`.  The scipy fitting
and quantile routines are opaque parameters `gumbelFit`, `weibullFit`,
`gumbelPpf`, `weibullPpf`.  Returns `(theoretical_values, loc, scale)`, or the
invalid-family error for any other family string. -/
def fit_distribution (gumbelFit : List ℚ → ℚ × ℚ) (weibullFit : List ℚ → ℚ × ℚ × ℚ)
    (gumbelPpf : ℚ → ℚ → ℚ → ℚ) (weibullPpf : ℚ → ℚ → ℚ → ℚ → ℚ)
    (data : List ℚ) (return_periods : List ℚ) (distribution extreme : String) :
    Except String (List ℚ × ℚ × ℚ) :=
  if distribution = "gumbel" then
    let (loc, scale) := gumbelFit data
    Except.ok (return_periods.map (fun T => gumbelPpf (gumbelProb extreme T) loc scale),
      loc, scale)
  else if distribution = "weibull" then
    let (shape, loc, scale) := weibullFit data
    Except.ok (return_periods.map (fun T => weibullPpf (weibullProb extreme T) shape loc scale),
      loc, scale)
  else
    Except.error "Distribution must be 'gumbel' or 'weibull'"

/-- The exceedance magnitudes computed by `peak_over_threshold`:
`data[data > threshold] - threshold` for `'high'`,
`threshold - data[data < threshold]` otherwise. -/
def potExceedances (data : List ℚ) (threshold : ℚ) (extreme : String) : List ℚ :=
  if extreme = "high" then
    (data.filter (fun v => decide (threshold < v))).map (fun v => v - threshold)
  else
    (data.filter (fun v => decide (v < threshold))).map (fun v => threshold - v)

/-- `peak_over_threshold` of `wetland_frequency_analysis.py`.  The scipy Pareto
fit is the opaque parameter `paretoFit`.  Returns
`(exceedances, shape, loc, scale)`, or the empty-exceedance error. -/
def peak_over_threshold (paretoFit : List ℚ → ℚ × ℚ × ℚ)
    (data : List ℚ) (threshold : ℚ) (extreme : String) :
    Except String (List ℚ × ℚ × ℚ × ℚ) :=
  let exceedances := potExceedances data threshold extreme
  if exceedances.length = 0 then
    Except.error "No data points exceed the threshold"
  else
    let (shape, loc, scale) := paretoFit exceedances
    Except.ok (exceedances, shape, loc, scale)

/-- The target probability computed by `wetland_frequency_analysis`:
`p_target = 1 - 1 / target_return_period if extreme == 'high' else 1 / target_return_period`. -/
def p_target (extreme : String) (T : ℚ) : ℚ :=
  if extreme = "high" then 1 - 1 / T else 1 / T

/-- The `target_event` computed by `wetland_frequency_analysis` from `p_target`:
`gumbel_r.ppf(p_target, loc, scale)` for gumbel (with the parameters returned
by `fit_distribution`, which are `gumbel_r.fit(data)`), else
`weibull_min.ppf(p_target, *weibull_min.fit(data))`. -/
def target_event (gumbelFit : List ℚ → ℚ × ℚ) (weibullFit : List ℚ → ℚ × ℚ × ℚ)
    (gumbelPpf : ℚ → ℚ → ℚ → ℚ) (weibullPpf : ℚ → ℚ → ℚ → ℚ → ℚ)
    (data : List ℚ) (T : ℚ) (extreme distribution : String) : ℚ :=
  if distribution = "gumbel" then
    let (loc, scale) := gumbelFit data
    gumbelPpf (p_target extreme T) loc scale
  else
    let (shape, loc, scale) := weibullFit data
    weibullPpf (p_target extreme T) shape loc scale

/-- `calculate_velocity` of `estimating_water_depth_and_flow_velocity.py`,
over the reals.  `none` models the `np.nan` returned when a
`ZeroDivisionError` is caught (raised by `area / wetted_perimeter` when
`width + 2*depth == 0`, or by `1 / manning_n` when `manning_n == 0`). -/
noncomputable def calculate_velocity (depth width slope manning_n : ℝ) : Option ℝ :=
  if width + 2 * depth = 0 ∨ manning_n = 0 then none
  else
    some ((1 / manning_n) * (((width * depth) / (width + 2 * depth)) ^ ((2 : ℝ) / 3))
      * (slope ^ ((1 : ℝ) / 2)))

theorem length_argsort {α : Type} [LinearOrder α] [Inhabited α] (xs : List α) :
    (argsort xs).length = xs.length := by
  simp [argsort, List.length_insertionSort]

theorem argsort_perm_range {α : Type} [LinearOrder α] [Inhabited α] (xs : List α) :
    (argsort xs).Perm (List.range xs.length) :=
  List.perm_insertionSort _ _

theorem length_wetlandRanks (data : List ℚ) (extreme : String) :
    (wetlandRanks data extreme).length = data.length := by
  unfold wetlandRanks
  split <;> simp [length_argsort]

theorem length_floodRanks (peak_flows : List ℚ) :
    (floodRanks peak_flows).length = peak_flows.length := by
  simp [floodRanks, length_argsort]

/-- C1: the direction convention (`1 − 1/T` for `'high'` extremes, `1/T` for
`'low'`) is implemented by the gumbel branch of `fit_distribution` but
inverted by its weibull branch, which tests `extreme == 'low'` instead of
`'high'`: at T = 10 in `'high'` mode the weibull branch hands `1/10`
(not `1 − 1/10`) to the inverse CDF, so the convention is not applied
identically for both families. -/
theorem fit_distribution_weibull_swaps_convention :
    gumbelProb "high" 10 = 1 - 1 / 10 ∧ gumbelProb "low" 10 = 1 / 10 ∧
    weibullProb "high" 10 = 1 / 10 ∧ weibullProb "low" 10 = 1 - 1 / 10 ∧
    ((1 : ℚ) / 10 ≠ 1 - 1 / 10) ∧
    fit_distribution (fun _ => (0, 0)) (fun _ => (0, 0, 0)) (fun p _ _ => p)
      (fun p _ _ _ => p) [] [10] "weibull" "high" = Except.ok ([1 / 10], 0, 0) := by
  refine ⟨rfl, rfl, rfl, rfl, by norm_num, ?_⟩
  unfold fit_distribution
  rw [if_neg (by decide), if_pos rfl]
  rfl

/-- C2: the Scenario Driver's TargetEstimate agrees with the fitter's
theoretical curve at the same return period for the gumbel family (both use
`p_target`), but for the weibull family the driver feeds `1 − 1/T` (mode
`'high'`) to the inverse CDF while the fitter's curve feeds `1/T`: at T = 10
the two probability computations give `9/10` versus `1/10`. -/
theorem target_estimate_vs_curve :
    (∀ (gumbelFit : List ℚ → ℚ × ℚ) (weibullFit : List ℚ → ℚ × ℚ × ℚ)
        (gumbelPpf : ℚ → ℚ → ℚ → ℚ) (weibullPpf : ℚ → ℚ → ℚ → ℚ → ℚ)
        (data : List ℚ) (T : ℚ) (extreme : String),
      fit_distribution gumbelFit weibullFit gumbelPpf weibullPpf data [T] "gumbel" extreme =
        Except.ok ([gumbelPpf (p_target extreme T) (gumbelFit data).1 (gumbelFit data).2],
          (gumbelFit data).1, (gumbelFit data).2) ∧
      target_event gumbelFit weibullFit gumbelPpf weibullPpf data T extreme "gumbel" =
        gumbelPpf (p_target extreme T) (gumbelFit data).1 (gumbelFit data).2) ∧
    target_event (fun _ => (0, 0)) (fun _ => (0, 0, 0)) (fun p _ _ => p) (fun p _ _ _ => p)
        [] 10 "high" "weibull" = 1 - 1 / 10 ∧
    fit_distribution (fun _ => (0, 0)) (fun _ => (0, 0, 0)) (fun p _ _ => p) (fun p _ _ _ => p)
        [] [10] "weibull" "high" = Except.ok ([1 / 10], 0, 0) ∧
    ((1 : ℚ) - 1 / 10 ≠ 1 / 10) := by
  refine ⟨?_, ?_, ?_, by norm_num⟩
  · intro gumbelFit weibullFit gumbelPpf weibullPpf data T extreme
    rcases hgf : gumbelFit data with ⟨loc, scale⟩
    constructor
    · simp [fit_distribution, hgf, gumbelProb, p_target]
    · simp [target_event, hgf]
  · rfl
  · unfold fit_distribution
    rw [if_neg (by decide), if_pos rfl]
    rfl

/-- C8: `fit_distribution` raises the invalid-family error for every family
string other than `'gumbel'` and `'weibull'`, producing no partial result,
while both valid families produce a result (no invalid-family error). -/
theorem fit_distribution_invalid_family (gumbelFit : List ℚ → ℚ × ℚ)
    (weibullFit : List ℚ → ℚ × ℚ × ℚ) (gumbelPpf : ℚ → ℚ → ℚ → ℚ)
    (weibullPpf : ℚ → ℚ → ℚ → ℚ → ℚ) (data return_periods : List ℚ)
    (distribution extreme : String)
    (h1 : distribution ≠ "gumbel") (h2 : distribution ≠ "weibull") :
    fit_distribution gumbelFit weibullFit gumbelPpf weibullPpf data return_periods
        distribution extreme = Except.error "Distribution must be 'gumbel' or 'weibull'" ∧
    (∃ r, fit_distribution gumbelFit weibullFit gumbelPpf weibullPpf data return_periods
        "gumbel" extreme = Except.ok r) ∧
    (∃ r, fit_distribution gumbelFit weibullFit gumbelPpf weibullPpf data return_periods
        "weibull" extreme = Except.ok r) := by
  refine ⟨?_, ?_, ?_⟩
  · unfold fit_distribution
    rw [if_neg h1, if_neg h2]
  · rcases hgf : gumbelFit data with ⟨loc, scale⟩
    refine ⟨(return_periods.map (fun T => gumbelPpf (gumbelProb extreme T) loc scale),
      loc, scale), ?_⟩
    unfold fit_distribution
    rw [if_pos rfl, hgf]
  · rcases hwf : weibullFit data with ⟨shape, loc, scale⟩
    refine ⟨(return_periods.map (fun T => weibullPpf (weibullProb extreme T) shape loc scale),
      loc, scale), ?_⟩
    unfold fit_distribution
    rw [if_neg (by decide), if_pos rfl, hwf]

/-- Witness for C8 at the spec's example: family string `"lognormal"`. -/
theorem fit_distribution_invalid_family_witness :
    fit_distribution (fun _ => (0, 0)) (fun _ => (0, 0, 0)) (fun p _ _ => p) (fun p _ _ _ => p)
        [] [10] "lognormal" "high" = Except.error "Distribution must be 'gumbel' or 'weibull'" ∧
    (∃ r, fit_distribution (fun _ => (0, 0)) (fun _ => (0, 0, 0)) (fun p _ _ => p)
        (fun p _ _ _ => p) [] [10] "gumbel" "high" = Except.ok r) ∧
    (∃ r, fit_distribution (fun _ => (0, 0)) (fun _ => (0, 0, 0)) (fun p _ _ => p)
        (fun p _ _ _ => p) [] [10] "weibull" "high" = Except.ok r) :=
  fit_distribution_invalid_family (fun _ => (0, 0)) (fun _ => (0, 0, 0)) (fun p _ _ => p)
    (fun p _ _ _ => p) [] [10] "lognormal" "high" (by decide) (by decide)

/-- C10 counterexample: for the unrecognised mode string `"High"` the weibull
branch of the Distribution Fitter does not behave as mode `'low'`: at T = 10
it hands `1/10` to the inverse CDF, while mode `'low'` hands `1 − 1/10`. -/
theorem fitter_mode_fallback_counterexample :
    fit_distribution (fun _ => (0, 0)) (fun _ => (0, 0, 0)) (fun p _ _ => p) (fun p _ _ _ => p)
        [] [10] "weibull" "High" = Except.ok ([1 / 10], 0, 0) ∧
    fit_distribution (fun _ => (0, 0)) (fun _ => (0, 0, 0)) (fun p _ _ => p) (fun p _ _ _ => p)
        [] [10] "weibull" "low" = Except.ok ([1 - 1 / 10], 0, 0) ∧
    ((1 : ℚ) / 10 ≠ 1 - 1 / 10) := by
  refine ⟨?_, ?_, by norm_num⟩ <;>
    · unfold fit_distribution
      rw [if_neg (by decide), if_pos rfl]
      rfl

/-- C3 counterexample: for the sample [120, 95, 150, 80, 110] in `'high'` mode
the ranks are [2, 4, 1, 5, 3], but the exceedance probability of the rank-1
element is `(1 − 0.44) / (5 + 1 − 0.88) = 7/64 = 0.109375`, not `0.137`, and
its return period is `64/7 ≈ 9.14` years, not approximately `7.32`. -/
theorem gringorten_example_counterexample :
    floodRanks [120, 95, 150, 80, 110] = [2, 4, 1, 5, 3] ∧
    (calculate_probabilities [120, 95, 150, 80, 110]).1.getD 2 0 = 7 / 64 ∧
    ((7 : ℚ) / 64 ≠ 137 / 1000) ∧
    (calculate_probabilities [120, 95, 150, 80, 110]).2.2.getD 2 0 = 64 / 7 ∧
    ¬ |(64 : ℚ) / 7 - 732 / 100| ≤ 1 / 4 := by
  have hr : floodRanks [120, 95, 150, 80, 110] = [2, 4, 1, 5, 3] := by decide
  refine ⟨hr, ?_, by norm_num, ?_, ?_⟩
  · simp [calculate_probabilities, hr, gringortenA]
    norm_num
  · simp [calculate_probabilities, hr, gringortenA]
    norm_num
  · rw [abs_of_nonneg (by norm_num)]
    norm_num

/-- C3 amended: for the sample [120, 95, 150, 80, 110] in `'high'` mode the
Plotting-Position Estimator produces ranks [2, 4, 1, 5, 3], the exceedance
probability of the rank-1 element equals
`(1 − 0.44) / (5 + 1 − 0.88) = 0.109375`, and its return period is
approximately 9.14 years. -/
theorem gringorten_example_corrected :
    floodRanks [120, 95, 150, 80, 110] = [2, 4, 1, 5, 3] ∧
    (calculate_probabilities [120, 95, 150, 80, 110]).1.getD 2 0 =
      (1 - 44 / 100) / (5 + 1 - 88 / 100) ∧
    ((1 : ℚ) - 44 / 100) / (5 + 1 - 88 / 100) = 109375 / 1000000 ∧
    (calculate_probabilities [120, 95, 150, 80, 110]).2.2.getD 2 0 = 64 / 7 ∧
    |(64 : ℚ) / 7 - 914 / 100| ≤ 1 / 100 := by
  have hr : floodRanks [120, 95, 150, 80, 110] = [2, 4, 1, 5, 3] := by decide
  refine ⟨hr, ?_, by norm_num, ?_, ?_⟩
  · simp [calculate_probabilities, hr, gringortenA]
    norm_num
  · simp [calculate_probabilities, hr, gringortenA]
    norm_num
  · rw [abs_of_nonneg (by norm_num)]
    norm_num

theorem keyAt_nat (z : List ℕ) (i : ℕ) : keyAt z i = z.getD i 0 := rfl

theorem keyAt_rat (data : List ℚ) (i : ℕ) : keyAt data i = data.getD i 0 := rfl

/-- `argsort` of a list `z` that is a permutation of `0, …, n−1` is the
inverse permutation: position `k` holds the index at which `z` holds `k`. -/
theorem argsort_of_perm_range {z : List ℕ} {n : ℕ} (hz : z.Perm (List.range n)) :
    argsort z = (List.range n).map (fun k => List.indexOf k z) := by
  have hlen : z.length = n := by rw [hz.length_eq, List.length_range]
  have hmem : ∀ k, k ∈ z ↔ k < n := fun k => hz.mem_iff.trans List.mem_range
  have hkey : ∀ k ∈ z, keyAt z (List.indexOf k z) = k := by
    intro k hk
    have hlt : List.indexOf k z < z.length := List.indexOf_lt_length.mpr hk
    rw [keyAt_nat, List.getD_eq_getElem _ _ hlt]
    exact List.getElem_indexOf hlt
  have hinj : ∀ x ∈ List.range n, ∀ y ∈ List.range n,
      List.indexOf x z = List.indexOf y z → x = y := by
    intro x hx y hy hxy
    have hx' : x ∈ z := (hmem x).mpr (List.mem_range.mp hx)
    have hy' : y ∈ z := (hmem y).mpr (List.mem_range.mp hy)
    calc x = keyAt z (List.indexOf x z) := (hkey x hx').symm
      _ = keyAt z (List.indexOf y z) := by rw [hxy]
      _ = y := hkey y hy'
  have hnodup_inv : ((List.range n).map (fun k => List.indexOf k z)).Nodup :=
    List.Nodup.map_on hinj (List.nodup_range n)
  have hsub : (List.range n).map (fun k => List.indexOf k z) ⊆ List.range n := by
    intro x hx
    rcases List.mem_map.mp hx with ⟨k, hk, rfl⟩
    have hk' : k ∈ z := (hmem k).mpr (List.mem_range.mp hk)
    exact List.mem_range.mpr (hlen ▸ List.indexOf_lt_length.mpr hk')
  have hperm_inv : ((List.range n).map (fun k => List.indexOf k z)).Perm (List.range n) :=
    (List.subperm_of_subset hnodup_inv hsub).perm_of_length_le (by simp)
  have hsorted_inv : List.Sorted (argsortRel z) ((List.range n).map (fun k => List.indexOf k z)) := by
    refine List.pairwise_map.mpr ?_
    refine List.Pairwise.imp_of_mem ?_ (List.pairwise_lt_range n)
    intro a b ha hb hab
    have ha' : a ∈ z := (hmem a).mpr (List.mem_range.mp ha)
    have hb' : b ∈ z := (hmem b).mpr (List.mem_range.mp hb)
    exact Or.inl (by rw [hkey a ha', hkey b hb']; exact hab)
  have hsorted_arg : List.Sorted (argsortRel z) (argsort z) :=
    List.sorted_insertionSort _ _
  have hperm_arg : (argsort z).Perm ((List.range n).map (fun k => List.indexOf k z)) := by
    refine (argsort_perm_range z).trans ?_
    rw [hlen]
    exact hperm_inv.symm
  exact List.eq_of_perm_of_sorted hperm_arg hsorted_arg hsorted_inv

/-- In a duplicate-free list, the index of `a` in the reversal is the mirrored
index of `a` in the list. -/
theorem indexOf_reverse_of_nodup {l : List ℕ} (hnd : l.Nodup) {a : ℕ} (ha : a ∈ l) :
    List.indexOf a l.reverse = l.length - 1 - List.indexOf a l := by
  have hm : List.indexOf a l < l.length := List.indexOf_lt_length.mpr ha
  have har : a ∈ l.reverse := List.mem_reverse.mpr ha
  have hir : List.indexOf a l.reverse < l.reverse.length := List.indexOf_lt_length.mpr har
  have hb : l.length - 1 - List.indexOf a l < l.reverse.length := by simp; omega
  have h1 : l.reverse[List.indexOf a l.reverse] = a := List.getElem_indexOf hir
  have hk : l.length - 1 - (l.length - 1 - List.indexOf a l) = List.indexOf a l := by omega
  have h2 : l.reverse[l.length - 1 - List.indexOf a l] = a := by
    rw [List.getElem_reverse]
    simp only [hk]
    exact List.getElem_indexOf hm
  exact (List.Nodup.getElem_inj_iff (List.nodup_reverse.mpr hnd)).mp (h1.trans h2.symm)

/-- The rank assigned at position `i` by the `'high'`-mode double argsort:
`N` minus the position of `i` in `argsort data`. -/
theorem wetlandRanks_high_getD (data : List ℚ) {i : ℕ} (hi : i < data.length) :
    (wetlandRanks data "high").getD i 0 =
      data.length - List.indexOf i (argsort data) := by
  have hz : ((argsort data).reverse).Perm (List.range data.length) :=
    (List.reverse_perm (argsort data)).trans (argsort_perm_range data)
  have hs : (argsort data).Perm (List.range data.length) := argsort_perm_range data
  have hnd : (argsort data).Nodup := hs.nodup_iff.mpr (List.nodup_range _)
  have hmem : i ∈ argsort data := hs.mem_iff.mpr (List.mem_range.mpr hi)
  have hidx : List.indexOf i (argsort data) < data.length :=
    length_argsort data ▸ List.indexOf_lt_length.mpr hmem
  have hrw : wetlandRanks data "high" =
      ((List.range data.length).map (fun k => List.indexOf k ((argsort data).reverse))).map
        (· + 1) := by
    unfold wetlandRanks
    rw [if_pos rfl, argsort_of_perm_range hz]
  rw [hrw]
  have hlt : i < ((List.range data.length).map
      (fun k => List.indexOf k ((argsort data).reverse))).length := by simpa using hi
  rw [List.getD_eq_getElem _ _ (by simpa using hi), List.getElem_map, List.getElem_map,
    List.getElem_range]
  rw [indexOf_reverse_of_nodup hnd hmem, length_argsort]
  omega

/-- `'high'`-mode order reversal: a strictly larger value sits strictly later
in `argsort data`. -/
theorem indexOf_argsort_lt (data : List ℚ) {i j : ℕ} (hi : i < data.length)
    (hj : j < data.length) (hij : data.getD j 0 < data.getD i 0) :
    List.indexOf j (argsort data) < List.indexOf i (argsort data) := by
  have hs : (argsort data).Perm (List.range data.length) := argsort_perm_range data
  have hsorted : List.Sorted (argsortRel data) (argsort data) :=
    List.sorted_insertionSort _ _
  have hmi : i ∈ argsort data := hs.mem_iff.mpr (List.mem_range.mpr hi)
  have hmj : j ∈ argsort data := hs.mem_iff.mpr (List.mem_range.mpr hj)
  have hlti : List.indexOf i (argsort data) < (argsort data).length :=
    List.indexOf_lt_length.mpr hmi
  have hltj : List.indexOf j (argsort data) < (argsort data).length :=
    List.indexOf_lt_length.mpr hmj
  have hne : i ≠ j := by
    intro h
    rw [h] at hij
    exact lt_irrefl _ hij
  rcases Nat.lt_trichotomy (List.indexOf i (argsort data)) (List.indexOf j (argsort data))
    with h | h | h
  · exfalso
    have hrel : argsortRel data i j := by
      have := hsorted.rel_get_of_lt
        (a := ⟨List.indexOf i (argsort data), hlti⟩)
        (b := ⟨List.indexOf j (argsort data), hltj⟩) h
      rwa [List.indexOf_get, List.indexOf_get] at this
    rcases hrel with hlt | ⟨heq, _⟩
    · rw [keyAt_rat, keyAt_rat] at hlt
      exact absurd hij (not_lt.mpr hlt.le)
    · rw [keyAt_rat, keyAt_rat] at heq
      rw [heq] at hij
      exact lt_irrefl _ hij
  · exfalso
    apply hne
    have h2j : (argsort data)[List.indexOf i (argsort data)] = j := by
      simp only [h]
      exact List.getElem_indexOf hltj
    exact (List.getElem_indexOf hlti).symm.trans h2j
  · exact h

/-- C5: for every sample of size N ≥ 2, in both `'high'` and `'low'` modes
(in fact for every mode string), the ranks produced by the Plotting-Position
Estimator of both scripts are a permutation of {1, …, N}. -/
theorem ranks_permutation (data : List ℚ) (extreme : String) (hN : 2 ≤ data.length) :
    (wetlandRanks data extreme).Perm ((List.range data.length).map (· + 1)) ∧
    (floodRanks data).Perm ((List.range data.length).map (· + 1)) := by
  refine ⟨?_, ?_⟩
  · unfold wetlandRanks
    split
    · have h := argsort_perm_range ((argsort data).reverse)
      have hl : ((argsort data).reverse).length = data.length := by
        simp [length_argsort]
      rw [hl] at h
      exact h.map _
    · have h := argsort_perm_range (argsort data)
      rw [length_argsort] at h
      exact h.map _
  · unfold floodRanks
    have h := argsort_perm_range ((argsort data).reverse)
    have hl : ((argsort data).reverse).length = data.length := by
      simp [length_argsort]
    rw [hl] at h
    exact h.map _

/-- Witness for C5 at the sample [5, 7]. -/
theorem ranks_permutation_witness :
    (2 ≤ ([5, 7] : List ℚ).length) ∧
    ((wetlandRanks [5, 7] "high").Perm ((List.range ([5, 7] : List ℚ).length).map (· + 1)) ∧
      (floodRanks [5, 7]).Perm ((List.range ([5, 7] : List ℚ).length).map (· + 1))) :=
  ⟨by norm_num, ranks_permutation [5, 7] "high" (by norm_num)⟩

theorem getD_map {α β : Type} (f : α → β) (l : List α) (i : ℕ) (d : β) (e : α)
    (h : i < l.length) : (l.map f).getD i d = f (l.getD i e) := by
  rw [List.getD_eq_getElem _ _ (by simpa using h), List.getD_eq_getElem _ _ h, List.getElem_map]

theorem wetland_exceedance_eq (data : List ℚ) (extreme : String) :
    (calculate_wetland_probabilities data extreme).1 =
      (wetlandRanks data extreme).map
        (fun (r : ℕ) => ((r : ℚ) - gringortenA) / ((data.length : ℚ) + 1 - 2 * gringortenA)) :=
  rfl

theorem flood_exceedance_eq (peak_flows : List ℚ) :
    (calculate_probabilities peak_flows).1 =
      (floodRanks peak_flows).map
        (fun (r : ℕ) => ((r : ℚ) - gringortenA) /
          ((peak_flows.length : ℚ) + 1 - 2 * gringortenA)) :=
  rfl

/-- C4: for every sample of size N ≥ 2 and each element, both scripts compute
exceedance probability `(rank − 0.44) / (N + 1 − 0.88)`, non-exceedance
probability exactly `1 −` the exceedance probability, and return period
exactly `1 /` the exceedance probability. -/
theorem gringorten_formula (data : List ℚ) (extreme : String) (i : ℕ)
    (hN : 2 ≤ data.length) (hi : i < data.length) :
    (calculate_wetland_probabilities data extreme).1.getD i 0 =
      (((wetlandRanks data extreme).getD i 0 : ℚ) - 44 / 100) /
        ((data.length : ℚ) + 1 - 88 / 100) ∧
    (calculate_wetland_probabilities data extreme).2.1.getD i 0 =
      1 - (calculate_wetland_probabilities data extreme).1.getD i 0 ∧
    (calculate_wetland_probabilities data extreme).2.2.getD i 0 =
      1 / (calculate_wetland_probabilities data extreme).1.getD i 0 ∧
    (calculate_probabilities data).1.getD i 0 =
      (((floodRanks data).getD i 0 : ℚ) - 44 / 100) / ((data.length : ℚ) + 1 - 88 / 100) ∧
    (calculate_probabilities data).2.1.getD i 0 =
      1 - (calculate_probabilities data).1.getD i 0 ∧
    (calculate_probabilities data).2.2.getD i 0 =
      1 / (calculate_probabilities data).1.getD i 0 := by
  have hlr : i < (wetlandRanks data extreme).length := by rw [length_wetlandRanks]; exact hi
  have hlf : i < (floodRanks data).length := by rw [length_floodRanks]; exact hi
  have hle : i < (calculate_wetland_probabilities data extreme).1.length := by
    rw [wetland_exceedance_eq, List.length_map, length_wetlandRanks]; exact hi
  have hlef : i < (calculate_probabilities data).1.length := by
    rw [flood_exceedance_eq, List.length_map, length_floodRanks]; exact hi
  refine ⟨?_, ?_, ?_, ?_, ?_, ?_⟩
  · rw [wetland_exceedance_eq, getD_map _ _ _ _ 0 hlr]
    norm_num [gringortenA]
  · rw [show (calculate_wetland_probabilities data extreme).2.1 =
      (calculate_wetland_probabilities data extreme).1.map (fun p => 1 - p) from rfl]
    rw [getD_map _ _ _ _ 0 hle]
  · rw [show (calculate_wetland_probabilities data extreme).2.2 =
      (calculate_wetland_probabilities data extreme).1.map (fun p => 1 / p) from rfl]
    rw [getD_map _ _ _ _ 0 hle]
  · rw [flood_exceedance_eq, getD_map _ _ _ _ 0 hlf]
    norm_num [gringortenA]
  · rw [show (calculate_probabilities data).2.1 =
      (calculate_probabilities data).1.map (fun p => 1 - p) from rfl]
    rw [getD_map _ _ _ _ 0 hlef]
  · rw [show (calculate_probabilities data).2.2 =
      (calculate_probabilities data).1.map (fun p => 1 / p) from rfl]
    rw [getD_map _ _ _ _ 0 hlef]

/-- Witness for C4 at the sample [5, 7], `'high'` mode, index 0. -/
theorem gringorten_formula_witness :
    (calculate_wetland_probabilities [5, 7] "high").1.getD 0 0 =
      (((wetlandRanks [5, 7] "high").getD 0 0 : ℚ) - 44 / 100) /
        ((([5, 7] : List ℚ).length : ℚ) + 1 - 88 / 100) ∧
    (calculate_wetland_probabilities [5, 7] "high").2.1.getD 0 0 =
      1 - (calculate_wetland_probabilities [5, 7] "high").1.getD 0 0 ∧
    (calculate_wetland_probabilities [5, 7] "high").2.2.getD 0 0 =
      1 / (calculate_wetland_probabilities [5, 7] "high").1.getD 0 0 ∧
    (calculate_probabilities [5, 7]).1.getD 0 0 =
      (((floodRanks [5, 7]).getD 0 0 : ℚ) - 44 / 100) /
        ((([5, 7] : List ℚ).length : ℚ) + 1 - 88 / 100) ∧
    (calculate_probabilities [5, 7]).2.1.getD 0 0 =
      1 - (calculate_probabilities [5, 7]).1.getD 0 0 ∧
    (calculate_probabilities [5, 7]).2.2.getD 0 0 =
      1 / (calculate_probabilities [5, 7]).1.getD 0 0 :=
  gringorten_formula [5, 7] "high" 0 (by norm_num) (by norm_num)

theorem wetlandRanks_high_lt (data : List ℚ) {i j : ℕ} (hi : i < data.length)
    (hj : j < data.length) (hij : data.getD j 0 < data.getD i 0) :
    (wetlandRanks data "high").getD i 0 < (wetlandRanks data "high").getD j 0 := by
  have hs : (argsort data).Perm (List.range data.length) := argsort_perm_range data
  have hmi : i ∈ argsort data := hs.mem_iff.mpr (List.mem_range.mpr hi)
  have hmj : j ∈ argsort data := hs.mem_iff.mpr (List.mem_range.mpr hj)
  have hlti : List.indexOf i (argsort data) < data.length :=
    length_argsort data ▸ List.indexOf_lt_length.mpr hmi
  have hltj : List.indexOf j (argsort data) < data.length :=
    length_argsort data ▸ List.indexOf_lt_length.mpr hmj
  have hidx := indexOf_argsort_lt data hi hj hij
  rw [wetlandRanks_high_getD data hi, wetlandRanks_high_getD data hj]
  omega

/-- C6: in `'high'` mode a strictly larger sample value receives a strictly
smaller rank and a strictly smaller exceedance probability, and a strict
maximum receives rank 1. -/
theorem high_mode_monotone (data : List ℚ) :
    (∀ i j : ℕ, i < data.length → j < data.length →
      data.getD j 0 < data.getD i 0 →
      (wetlandRanks data "high").getD i 0 < (wetlandRanks data "high").getD j 0 ∧
      (calculate_wetland_probabilities data "high").1.getD i 0 <
        (calculate_wetland_probabilities data "high").1.getD j 0) ∧
    (∀ i : ℕ, i < data.length →
      (∀ j : ℕ, j < data.length → j ≠ i → data.getD j 0 < data.getD i 0) →
      (wetlandRanks data "high").getD i 0 = 1) := by
  constructor
  · intro i j hi hj hij
    have hrank := wetlandRanks_high_lt data hi hj hij
    refine ⟨hrank, ?_⟩
    have hN1 : (1 : ℚ) ≤ (data.length : ℚ) := by
      have : 1 ≤ data.length := by omega
      exact_mod_cast this
    have hD : (0 : ℚ) < (data.length : ℚ) + 1 - 2 * gringortenA := by
      rw [gringortenA]; linarith
    have hlri : i < (wetlandRanks data "high").length := by rw [length_wetlandRanks]; exact hi
    have hlrj : j < (wetlandRanks data "high").length := by rw [length_wetlandRanks]; exact hj
    rw [wetland_exceedance_eq, getD_map _ _ _ _ 0 hlri, getD_map _ _ _ _ 0 hlrj]
    have hcast : (((wetlandRanks data "high").getD i 0 : ℚ)) <
        (((wetlandRanks data "high").getD j 0 : ℚ)) := by exact_mod_cast hrank
    gcongr
  · intro i hi hmax
    have hperm : (wetlandRanks data "high").Perm
        ((List.range data.length).map (· + 1)) := by
      unfold wetlandRanks
      rw [if_pos rfl]
      have h := argsort_perm_range ((argsort data).reverse)
      have hl : ((argsort data).reverse).length = data.length := by simp [length_argsort]
      rw [hl] at h
      exact h.map _
    have h1mem : (1 : ℕ) ∈ wetlandRanks data "high" := by
      refine hperm.mem_iff.mpr (List.mem_map.mpr ⟨0, List.mem_range.mpr (by omega), rfl⟩)
    obtain ⟨k, hk, hk1⟩ := List.mem_iff_getElem.mp h1mem
    have hk' : k < data.length := by rw [← length_wetlandRanks data "high"]; exact hk
    have hkD : (wetlandRanks data "high").getD k 0 = 1 := by
      rw [List.getD_eq_getElem _ _ hk]; exact hk1
    by_cases hki : k = i
    · rw [← hki]; exact hkD
    · exfalso
      have hlt := wetlandRanks_high_lt data hi hk' (hmax k hk' hki)
      have hgei : 1 ≤ (wetlandRanks data "high").getD i 0 := by
        have hs : (argsort data).Perm (List.range data.length) := argsort_perm_range data
        have hmi : i ∈ argsort data := hs.mem_iff.mpr (List.mem_range.mpr hi)
        have hlti : List.indexOf i (argsort data) < data.length :=
          length_argsort data ▸ List.indexOf_lt_length.mpr hmi
        rw [wetlandRanks_high_getD data hi]
        omega
      omega

/-- Witness for C6 at the sample [1, 2]: the larger value (index 1) gets the
smaller rank and exceedance probability, and gets rank 1. -/
theorem high_mode_monotone_witness :
    ((wetlandRanks [1, 2] "high").getD 1 0 < (wetlandRanks [1, 2] "high").getD 0 0 ∧
      (calculate_wetland_probabilities [1, 2] "high").1.getD 1 0 <
        (calculate_wetland_probabilities [1, 2] "high").1.getD 0 0) ∧
    (wetlandRanks [1, 2] "high").getD 1 0 = 1 :=
  ⟨(high_mode_monotone [1, 2]).1 1 0 (by norm_num) (by norm_num) (by norm_num),
   (high_mode_monotone [1, 2]).2 1 (by norm_num) (fun j hj hne => by
      have hj2 : j < 2 := by simpa using hj
      interval_cases j
      · norm_num
      · exact absurd rfl hne)⟩

/-- The threshold-crossing condition of `peak_over_threshold`:
strictly above the threshold in `'high'` mode, strictly below otherwise. -/
def potCrosses (threshold : ℚ) (extreme : String) (v : ℚ) : Prop :=
  if extreme = "high" then threshold < v else v < threshold

theorem potExceedances_eq_nil_iff (data : List ℚ) (threshold : ℚ) (extreme : String) :
    potExceedances data threshold extreme = [] ↔
      ∀ v ∈ data, ¬ potCrosses threshold extreme v := by
  by_cases hm : extreme = "high"
  · unfold potExceedances
    rw [if_pos hm, List.map_eq_nil_iff, List.filter_eq_nil_iff]
    constructor
    · intro h v hv
      unfold potCrosses
      rw [if_pos hm]
      simpa using h v hv
    · intro h v hv
      have hc := h v hv
      unfold potCrosses at hc
      rw [if_pos hm] at hc
      simpa using hc
  · unfold potExceedances
    rw [if_neg hm, List.map_eq_nil_iff, List.filter_eq_nil_iff]
    constructor
    · intro h v hv
      unfold potCrosses
      rw [if_neg hm]
      simpa using h v hv
    · intro h v hv
      have hc := h v hv
      unfold potCrosses at hc
      rw [if_neg hm] at hc
      simpa using hc

theorem pot_eq (paretoFit : List ℚ → ℚ × ℚ × ℚ) (data : List ℚ) (threshold : ℚ)
    (extreme : String) :
    peak_over_threshold paretoFit data threshold extreme =
      if potExceedances data threshold extreme = [] then
        Except.error "No data points exceed the threshold"
      else
        Except.ok (potExceedances data threshold extreme,
          paretoFit (potExceedances data threshold extreme)) := by
  unfold peak_over_threshold
  rcases hpf : paretoFit (potExceedances data threshold extreme) with ⟨a, b, c⟩
  by_cases h : (potExceedances data threshold extreme).length = 0
  · rw [if_pos h, if_pos (List.length_eq_zero.mp h)]
  · rw [if_neg h, if_neg (fun hh : potExceedances data threshold extreme = [] =>
      h (by rw [hh]; rfl)), hpf]

/-- C7: `peak_over_threshold` raises the empty-exceedance error iff no sample
element strictly crosses the threshold (strictly above for `'high'`, strictly
below for `'low'`), producing no partial result in that case; otherwise it
retains exactly the strictly-crossing elements with magnitudes
`value − threshold` (`'high'`) or `threshold − value` (`'low'`). -/
theorem pot_empty_error_iff (paretoFit : List ℚ → ℚ × ℚ × ℚ) (data : List ℚ)
    (threshold : ℚ) (extreme : String) :
    ((∃ e, peak_over_threshold paretoFit data threshold extreme = Except.error e) ↔
      ∀ v ∈ data, ¬ potCrosses threshold extreme v) ∧
    ((∃ v ∈ data, potCrosses threshold extreme v) →
      peak_over_threshold paretoFit data threshold extreme =
        Except.ok (potExceedances data threshold extreme,
          paretoFit (potExceedances data threshold extreme))) ∧
    potExceedances data threshold extreme =
      (if extreme = "high" then
        (data.filter (fun v => decide (threshold < v))).map (fun v => v - threshold)
      else
        (data.filter (fun v => decide (v < threshold))).map (fun v => threshold - v)) := by
  refine ⟨?_, ?_, rfl⟩
  · rw [pot_eq]
    by_cases h : potExceedances data threshold extreme = []
    · rw [if_pos h]
      exact ⟨fun _ => (potExceedances_eq_nil_iff _ _ _).mp h, fun _ => ⟨_, rfl⟩⟩
    · rw [if_neg h]
      constructor
      · rintro ⟨e, he⟩
        exact Except.noConfusion he
      · intro hall
        exact absurd ((potExceedances_eq_nil_iff _ _ _).mpr hall) h
  · rintro ⟨v, hv, hcross⟩
    rw [pot_eq, if_neg (fun hnil =>
      ((potExceedances_eq_nil_iff _ _ _).mp hnil) v hv hcross)]

/-- Witness for C7: the sample [1, 2] with threshold 0 in `'high'` mode
yields both exceedances; with out-of-range threshold 5 it errors. -/
theorem pot_empty_error_iff_witness :
    peak_over_threshold (fun _ => ((0 : ℚ), (0 : ℚ), (0 : ℚ))) [1, 2] 0 "high" =
      Except.ok (potExceedances [1, 2] 0 "high", 0, 0, 0) ∧
    (∃ e, peak_over_threshold (fun _ => ((0 : ℚ), (0 : ℚ), (0 : ℚ))) [1, 2] 5 "high" =
      Except.error e) :=
  ⟨(pot_empty_error_iff _ [1, 2] 0 "high").2.1
      ⟨1, by simp, by unfold potCrosses; rw [if_pos rfl]; norm_num⟩,
   (pot_empty_error_iff _ [1, 2] 5 "high").1.mpr (fun v hv => by
      unfold potCrosses
      rw [if_pos rfl]
      fin_cases hv <;> norm_num)⟩

/-- C9: `calculate_velocity` returns NaN (modelled as `none`) instead of
raising when `manning_n = 0` or `width + 2·depth = 0`; for positive arguments
it returns Manning's formula `(1/n) · R^(2/3) · S^(1/2)` with
`R = (width·depth) / (width + 2·depth)`. -/
theorem calculate_velocity_spec (depth width slope manning_n : ℝ) :
    ((manning_n = 0 ∨ width + 2 * depth = 0) →
      calculate_velocity depth width slope manning_n = none) ∧
    (0 < depth → 0 < width → 0 < slope → 0 < manning_n →
      calculate_velocity depth width slope manning_n =
        some ((1 / manning_n) * (((width * depth) / (width + 2 * depth)) ^ ((2 : ℝ) / 3))
          * (slope ^ ((1 : ℝ) / 2)))) := by
  constructor
  · intro h
    unfold calculate_velocity
    rcases h with h | h
    · rw [if_pos (Or.inr h)]
    · rw [if_pos (Or.inl h)]
  · intro hd hw hs hn
    unfold calculate_velocity
    rw [if_neg (not_or.mpr ⟨(by positivity : (0 : ℝ) < width + 2 * depth).ne', hn.ne'⟩)]

/-- Witness for C9: `manning_n = 0` yields NaN; unit inputs yield the formula. -/
theorem calculate_velocity_spec_witness :
    calculate_velocity 1 1 1 0 = none ∧
    calculate_velocity 1 1 1 1 =
      some ((1 / (1 : ℝ)) * ((((1 : ℝ) * 1) / (1 + 2 * 1)) ^ ((2 : ℝ) / 3))
        * ((1 : ℝ) ^ ((1 : ℝ) / 2))) :=
  ⟨(calculate_velocity_spec 1 1 1 0).1 (Or.inl rfl),
   (calculate_velocity_spec 1 1 1 1).2 one_pos one_pos one_pos one_pos⟩

/-- C10 amended: the extremes-mode argument is never validated and no
component raises for an unrecognised mode; every mode string other than
`'high'` makes the Plotting-Position Estimator, the Threshold Exceedance
Extractor, the Scenario Driver's target probability, and the gumbel branch of
the Distribution Fitter behave as `'low'`, while the weibull branch of the
Distribution Fitter (which tests `'low'`) instead behaves as `'high'`. -/
theorem mode_not_validated (data : List ℚ) (t T : ℚ)
    (paretoFit : List ℚ → ℚ × ℚ × ℚ) (gumbelFit : List ℚ → ℚ × ℚ)
    (weibullFit : List ℚ → ℚ × ℚ × ℚ) (gumbelPpf : ℚ → ℚ → ℚ → ℚ)
    (weibullPpf : ℚ → ℚ → ℚ → ℚ → ℚ) (distribution extreme : String)
    (hmode : extreme ≠ "high") :
    wetlandRanks data extreme = wetlandRanks data "low" ∧
    calculate_wetland_probabilities data extreme =
      calculate_wetland_probabilities data "low" ∧
    peak_over_threshold paretoFit data t extreme =
      peak_over_threshold paretoFit data t "low" ∧
    p_target extreme T = p_target "low" T ∧
    target_event gumbelFit weibullFit gumbelPpf weibullPpf data T extreme distribution =
      target_event gumbelFit weibullFit gumbelPpf weibullPpf data T "low" distribution ∧
    gumbelProb extreme T = gumbelProb "low" T ∧
    (extreme ≠ "low" → weibullProb extreme T = weibullProb "high" T) := by
  have hr : wetlandRanks data extreme = wetlandRanks data "low" := by
    unfold wetlandRanks
    rw [if_neg hmode, if_neg (by decide)]
  have hpe : potExceedances data t extreme = potExceedances data t "low" := by
    unfold potExceedances
    rw [if_neg hmode, if_neg (by decide)]
  have hpt : p_target extreme T = p_target "low" T := by
    unfold p_target
    rw [if_neg hmode, if_neg (by decide)]
  refine ⟨hr, ?_, ?_, hpt, ?_, ?_, ?_⟩
  · unfold calculate_wetland_probabilities
    rw [hr]
  · unfold peak_over_threshold
    rw [hpe]
  · unfold target_event
    rw [hpt]
  · unfold gumbelProb
    rw [if_neg hmode, if_neg (by decide)]
  · intro hlow
    unfold weibullProb
    rw [if_neg hlow, if_neg (by decide)]

/-- Witness for C10 amended at the misspelled mode `"High"`. -/
theorem mode_not_validated_witness :
    wetlandRanks [1] "High" = wetlandRanks [1] "low" ∧
    calculate_wetland_probabilities [1] "High" =
      calculate_wetland_probabilities [1] "low" ∧
    peak_over_threshold (fun _ => ((0 : ℚ), (0 : ℚ), (0 : ℚ))) [1] 0 "High" =
      peak_over_threshold (fun _ => ((0 : ℚ), (0 : ℚ), (0 : ℚ))) [1] 0 "low" ∧
    p_target "High" 10 = p_target "low" 10 ∧
    target_event (fun _ => (0, 0)) (fun _ => (0, 0, 0)) (fun p _ _ => p) (fun p _ _ _ => p)
        [1] 10 "High" "gumbel" =
      target_event (fun _ => (0, 0)) (fun _ => (0, 0, 0)) (fun p _ _ => p) (fun p _ _ _ => p)
        [1] 10 "low" "gumbel" ∧
    gumbelProb "High" 10 = gumbelProb "low" 10 ∧
    (("High" : String) ≠ "low" → weibullProb "High" 10 = weibullProb "high" 10) :=
  mode_not_validated [1] 0 10 (fun _ => ((0 : ℚ), (0 : ℚ), (0 : ℚ))) (fun _ => (0, 0))
    (fun _ => (0, 0, 0)) (fun p _ _ => p) (fun p _ _ _ => p) "gumbel" "High" (by decide)

end Hydrology
